import Mathlib

/-!
Shallow embedding of `src/main.py` (yearly-strava-graph): a pipeline that
filters Strava CSV rows to one year and one activity type, zero-fills a
daily mileage series over the whole year, computes a cumulative prefix sum
(rounded to two decimals for display), and renders a chart.

Python `datetime` values are modelled by the `DT` structure with the usual
lexicographic comparison; Python floats are modelled by exact rationals `ℚ`;
fallible steps return `Except Err`.
-/

set_option maxRecDepth 8000

/-- Model of a Python `datetime` value (microseconds are never used by the
program and are omitted). -/
structure DT where
  year : Nat
  month : Nat
  day : Nat
  hour : Nat
  minute : Nat
  second : Nat
deriving DecidableEq, Repr

/-- Lexicographic `<` on datetimes, as Python compares `datetime` values. -/
def dtLt (a b : DT) : Bool :=
  if a.year ≠ b.year then decide (a.year < b.year)
  else if a.month ≠ b.month then decide (a.month < b.month)
  else if a.day ≠ b.day then decide (a.day < b.day)
  else if a.hour ≠ b.hour then decide (a.hour < b.hour)
  else if a.minute ≠ b.minute then decide (a.minute < b.minute)
  else decide (a.second < b.second)

/-- Lexicographic `≤` on datetimes. -/
def dtLe (a b : DT) : Bool := dtLt a b || decide (a = b)

/-- The calendar-day triple of a datetime (year, month, day). -/
def calDay (d : DT) : Nat × Nat × Nat := (d.year, d.month, d.day)

/-- Gregorian leap-year test, as implemented by Python's `calendar`/`datetime`. -/
def isLeap (y : Nat) : Bool := (y % 4 == 0 && y % 100 != 0) || y % 400 == 0

/-- Days in a month, parameterized by the leap-year flag. -/
def daysInMonthB (leap : Bool) (m : Nat) : Nat :=
  if m = 2 then (if leap then 29 else 28)
  else if m = 4 ∨ m = 6 ∨ m = 9 ∨ m = 11 then 30
  else 31

/-- Days in month `m` of year `y`. -/
def daysInMonth (y m : Nat) : Nat := daysInMonthB (isLeap y) m

/-- Number of days in year `y`. -/
def daysInYear (y : Nat) : Nat := if isLeap y then 366 else 365

/-- Python's `d + timedelta(days=1)`: advance a datetime by one calendar day,
keeping the time of day. -/
def addDay (d : DT) : DT :=
  if d.day < daysInMonth d.year d.month then
    ⟨d.year, d.month, d.day + 1, d.hour, d.minute, d.second⟩
  else if d.month < 12 then
    ⟨d.year, d.month + 1, 1, d.hour, d.minute, d.second⟩
  else
    ⟨d.year + 1, 1, 1, d.hour, d.minute, d.second⟩

/-- The `while d < end_date` loop of `gen_days`, with fuel (the loop always
terminates within 366 iterations; 400 units of fuel are more than enough,
as the proofs below confirm by exhibiting the exact output). -/
def genDaysLoop : Nat → DT → DT → List DT
  | 0, _, _ => []
  | fuel + 1, d, e =>
    if dtLt d e then addDay d :: genDaysLoop fuel (addDay d) e else []

/-- The function `gen_days(year)` from `src/main.py`: the list of days of the year,
starting at `datetime(year, 1, 1)` and appending successor days while the
current day is before `datetime(year, 12, 31)`. -/
def gen_days (year : Nat) : List DT :=
  let start_date : DT := ⟨year, 1, 1, 0, 0, 0⟩
  let end_date : DT := ⟨year, 12, 31, 0, 0, 0⟩
  start_date :: genDaysLoop 400 start_date end_date

/-- Lexicographic `<` on (month, day) pairs. -/
def pairLt (p q : Nat × Nat) : Bool :=
  decide (p.1 < q.1) || (decide (p.1 = q.1) && decide (p.2 < q.2))

/-- One-day step on (month, day) pairs, mirroring `addDay` within one year. -/
def pairStep (b : Bool) (p : Nat × Nat) : Nat × Nat :=
  if p.2 < daysInMonthB b p.1 then (p.1, p.2 + 1) else (p.1 + 1, 1)

/-- Year-independent companion of `genDaysLoop` on (month, day) pairs. -/
def pairsLoop (b : Bool) : Nat → Nat × Nat → List (Nat × Nat)
  | 0, _ => []
  | fuel + 1, p =>
    if pairLt p (12, 31) then pairStep b p :: pairsLoop b fuel (pairStep b p) else []

/-- The (month, day) pairs produced by `gen_days`, depending only on the
leap-year flag. -/
def pairsList (b : Bool) : List (Nat × Nat) := (1, 1) :: pairsLoop b 400 (1, 1)

/-- Canonical enumeration of the calendar days of a year, January 1 through
December 31, in order: month 1 to 12, each with days 1 to `daysInMonthB`. -/
def allPairs (b : Bool) : List (Nat × Nat) :=
  ((List.range 12).map
    (fun m => (List.range (daysInMonthB b (m + 1))).map (fun d => (m + 1, d + 1)))).flatten

/-- Boolean check that consecutive elements of a list satisfy `r`. -/
def chainB (r : α → α → Bool) : List α → Bool
  | [] => true
  | [_] => true
  | a :: b :: rest => r a b && chainB r (b :: rest)

/-- Every month has at least one day. -/
theorem daysInMonthB_pos (b : Bool) (m : Nat) : 1 ≤ daysInMonthB b m := by
  unfold daysInMonthB
  split
  · split <;> omega
  · split <;> omega

/-- December has 31 days regardless of leap year. -/
theorem daysInMonthB_twelve (b : Bool) : daysInMonthB b 12 = 31 := rfl

/-- January has 31 days regardless of leap year. -/
theorem daysInMonthB_one (b : Bool) : daysInMonthB b 1 = 31 := rfl

/-- Within one year at midnight, the `gen_days` loop guard is the
lexicographic comparison of (month, day) pairs. -/
theorem dtLt_same_year (y m d : Nat) :
    dtLt ⟨y, m, d, 0, 0, 0⟩ ⟨y, 12, 31, 0, 0, 0⟩ = pairLt (m, d) (12, 31) := by
  by_cases hm : m = 12 <;> by_cases hd : d = 31 <;>
    simp [dtLt, pairLt, hm, hd]

/-- Under the in-year invariant and a true loop guard, `addDay` acts like
`pairStep` on the (month, day) pair, fixing the year and time of day. -/
theorem addDay_eq_pairStep (y : Nat) (b : Bool) (hb : isLeap y = b)
    (m d : Nat) (hm2 : m ≤ 12) (hd2 : d ≤ daysInMonthB b m)
    (hlt : pairLt (m, d) (12, 31) = true) :
    addDay ⟨y, m, d, 0, 0, 0⟩ = ⟨y, (pairStep b (m, d)).1, (pairStep b (m, d)).2, 0, 0, 0⟩ := by
  have hdm : daysInMonth y m = daysInMonthB b m := by rw [daysInMonth, hb]
  by_cases hlt2 : d < daysInMonthB b m
  · simp [addDay, pairStep, hdm, hlt2]
  · have hdeq : d = daysInMonthB b m := le_antisymm hd2 (Nat.le_of_not_lt hlt2)
    have hm12 : m < 12 := by
      rcases Nat.lt_or_ge m 12 with h | h
      · exact h
      · exfalso
        have hmeq : m = 12 := le_antisymm hm2 h
        rw [hmeq, daysInMonthB_twelve] at hdeq
        rw [hmeq, hdeq] at hlt
        simp [pairLt] at hlt
    simp [addDay, pairStep, hdm, hlt2, hm12]

/-- The step `pairStep` preserves the in-year invariant while the guard holds. -/
theorem pairStep_invar (b : Bool) (m d : Nat) (hm1 : 1 ≤ m) (hm2 : m ≤ 12)
    (hd1 : 1 ≤ d) (hd2 : d ≤ daysInMonthB b m)
    (hlt : pairLt (m, d) (12, 31) = true) :
    1 ≤ (pairStep b (m, d)).1 ∧ (pairStep b (m, d)).1 ≤ 12 ∧
      1 ≤ (pairStep b (m, d)).2 ∧ (pairStep b (m, d)).2 ≤ daysInMonthB b (pairStep b (m, d)).1 := by
  by_cases hlt2 : d < daysInMonthB b m
  · simp only [pairStep, hlt2, if_true]
    exact ⟨hm1, hm2, by omega, by omega⟩
  · have hdeq : d = daysInMonthB b m := le_antisymm hd2 (Nat.le_of_not_lt hlt2)
    have hm12 : m < 12 := by
      rcases Nat.lt_or_ge m 12 with h | h
      · exact h
      · exfalso
        have hmeq : m = 12 := le_antisymm hm2 h
        rw [hmeq, daysInMonthB_twelve] at hdeq
        rw [hmeq, hdeq] at hlt
        simp [pairLt] at hlt
    simp only [pairStep, hlt2, if_false]
    exact ⟨by omega, by omega, le_refl 1, daysInMonthB_pos b (m + 1)⟩

/-- The `gen_days` loop, started anywhere inside the year, is the image of
the year-independent pair loop. -/
theorem genDaysLoop_pairs (y : Nat) (b : Bool) (hb : isLeap y = b) :
    ∀ (fuel m d : Nat), 1 ≤ m → m ≤ 12 → 1 ≤ d → d ≤ daysInMonthB b m →
    genDaysLoop fuel ⟨y, m, d, 0, 0, 0⟩ ⟨y, 12, 31, 0, 0, 0⟩
      = (pairsLoop b fuel (m, d)).map (fun p => DT.mk y p.1 p.2 0 0 0) := by
  intro fuel
  induction fuel with
  | zero => intro m d _ _ _ _; rfl
  | succ n ih =>
    intro m d hm1 hm2 hd1 hd2
    rw [genDaysLoop, pairsLoop, dtLt_same_year]
    by_cases hlt : pairLt (m, d) (12, 31) = true
    · rw [if_pos hlt, if_pos hlt]
      obtain ⟨h1, h2, h3, h4⟩ := pairStep_invar b m d hm1 hm2 hd1 hd2 hlt
      rw [addDay_eq_pairStep y b hb m d hm2 hd2 hlt]
      rw [List.map_cons]
      have := ih (pairStep b (m, d)).1 (pairStep b (m, d)).2 h1 h2 h3 h4
      rw [this]
    · rw [if_neg hlt, if_neg hlt, List.map_nil]

/-- Function `gen_days y` gives the canonical (month, day) pair list of the year,
embedded at year `y` with time of day midnight. -/
theorem gen_days_eq (y : Nat) :
    gen_days y = (pairsList (isLeap y)).map (fun p => DT.mk y p.1 p.2 0 0 0) := by
  have h := genDaysLoop_pairs y (isLeap y) rfl 400 1 1 (le_refl 1) (by omega) (le_refl 1)
    (by rw [daysInMonthB_one]; omega)
  simp only [gen_days, pairsList, List.map_cons]
  rw [h]

/-- The pair list agrees with the canonical day enumeration (leap year). -/
theorem pairsList_true : pairsList true = allPairs true := by decide

/-- The pair list agrees with the canonical day enumeration (common year). -/
theorem pairsList_false : pairsList false = allPairs false := by decide

/-- The pair list of a leap year has 366 entries. -/
theorem pairsList_true_length : (pairsList true).length = 366 := by decide

/-- The pair list of a common year has 365 entries. -/
theorem pairsList_false_length : (pairsList false).length = 365 := by decide

/-- Consecutive pairs of the leap-year list strictly increase. -/
theorem pairsList_true_chain : chainB pairLt (pairsList true) = true := by decide

/-- Consecutive pairs of the common-year list strictly increase. -/
theorem pairsList_false_chain : chainB pairLt (pairsList false) = true := by decide

/-- February 29 occurs in the leap-year list. -/
theorem pairsList_feb29 : (2, 29) ∈ pairsList true := by decide

/-- One activity record: the Python dict `{"date": ..., "mileage": ...}`.
The same shape is used for filtered records and for enriched daily entries. -/
structure Activity where
  date : DT
  mileage : ℚ
deriving DecidableEq, Repr

/-- The function `find_matching_activities(day, activities)` from `src/main.py`: the
records whose month, day and year equal the given day's. -/
def find_matching_activities (day : DT) (activities : List Activity) : List Activity :=
  activities.filter (fun a =>
    a.date.month == day.month && a.date.day == day.day && a.date.year == day.year)

/-- The comparison by which `enrich_activities` sorts: `key=lambda d: d["date"]`. -/
def actLe (a b : Activity) : Prop := dtLe a.date b.date = true

instance : DecidableRel actLe := fun a b => inferInstanceAs (Decidable (dtLe a.date b.date = true))

/-- Python's `sorted(activities, key=lambda d: d["date"])`: a stable sort by
date. -/
def sortActivities (l : List Activity) : List Activity := List.insertionSort actLe l

/-- The body of the `for day in days` loop of `enrich_activities`: a zero
entry at the canonical day when nothing matches, otherwise the first match's
date with the summed mileage. -/
def dayEntry (sorted : List Activity) (day : DT) : Activity :=
  match find_matching_activities day sorted with
  | [] => { date := day, mileage := 0 }
  | m :: ms =>
    { date := m.date, mileage := (m :: ms).foldl (fun acc a => acc + a.mileage) 0 }

/-- The function `enrich_activities(activities, year)` from `src/main.py`. -/
def enrich_activities (activities : List Activity) (year : Nat) : List Activity :=
  (gen_days year).map (dayEntry (sortActivities activities))

/-- Numpy's `np.cumsum` on a one-dimensional sequence: the list of prefix sums, shifted by an accumulator. -/
def cumsumAux (acc : ℚ) : List ℚ → List ℚ
  | [] => []
  | x :: xs => (acc + x) :: cumsumAux (acc + x) xs

/-- Numpy's `np.cumsum`, starting from zero. -/
def cumsum (l : List ℚ) : List ℚ := cumsumAux 0 l

/-- Python's `round(val, 2)`: rounding to two decimal places. (Modelled as
round-half-up on exact rationals; no value in this development sits on a
half-cent tie, so the tie-breaking direction is immaterial.) -/
def round2 (q : ℚ) : ℚ := (⌊q * 100 + 1 / 2⌋ : ℚ) / 100

/-- The failures the pipeline can raise: `ValueError` from
`datetime.strptime`/`float` (a parse error), and the `ValueError` raised by
unpacking `zip(*[])` in `create_graph` on an empty series. -/
inductive Err where
  | parseError : Err
  | unpackError : Err
deriving DecidableEq, Repr

/-- The series construction of `create_graph` (`src/main.py` lines 73-75):
`zip(*...)` unpacking (which raises on an empty list), per-element
`np.cumsum` (a one-element array per entry), `np.cumsum` across the
flattened sequence, and rounding each value to two decimals. The plotting
side effects are not modelled. -/
def create_graph_series (enriched : List Activity) : Except Err (List DT × List ℚ) :=
  match enriched with
  | [] => .error .unpackError
  | _ :: _ =>
    let x_vals := enriched.map (fun i => i.date)
    let y_vals_init := enriched.map (fun i => cumsum [i.mileage])
    let y_vals := cumsum y_vals_init.flatten
    .ok (x_vals, y_vals.map round2)

/-- One CSV data row, restricted to the fields the program reads:
`row[1]` (timestamp), `row[3]` (activity type), `row[6]` (kilometers). -/
structure Row where
  dateStr : String
  activityType : String
  distanceStr : String
deriving DecidableEq, Repr

/-- Numeric value of a decimal digit character. -/
def digitVal (c : Char) : Option Nat :=
  if '0' ≤ c ∧ c ≤ '9' then some (c.toNat - '0'.toNat) else none

/-- Split a leading run of decimal digits off a character list. -/
def takeDigits : List Char → List Nat × List Char
  | [] => ([], [])
  | c :: cs =>
    match digitVal c with
    | some d =>
      match takeDigits cs with
      | (ds, rest) => (d :: ds, rest)
    | none => ([], c :: cs)

/-- The natural number denoted by a digit list. -/
def digitsToNat (ds : List Nat) : Nat := ds.foldl (fun a d => a * 10 + d) 0

/-- Read a nonempty run of digits as a natural number. -/
def parseNatNum (cs : List Char) : Option (Nat × List Char) :=
  match takeDigits cs with
  | ([], _) => none
  | (d :: ds, rest) => some (digitsToNat (d :: ds), rest)

/-- Consume one expected character. -/
def expectChar (c : Char) : List Char → Option (List Char)
  | [] => none
  | x :: xs => if x = c then some xs else none

/-- The twelve abbreviated month names of the `%b` directive. -/
def monthAbbrevs : List (List Char) :=
  [['J','a','n'], ['F','e','b'], ['M','a','r'], ['A','p','r'],
   ['M','a','y'], ['J','u','n'], ['J','u','l'], ['A','u','g'],
   ['S','e','p'], ['O','c','t'], ['N','o','v'], ['D','e','c']]

/-- Match a month abbreviation, returning the month number (1-12). -/
def parseMonthAux : Nat → List (List Char) → List Char → Option (Nat × List Char)
  | _, [], _ => none
  | i, ab :: rest, cs =>
    if cs.take 3 = ab then some (i + 1, cs.drop 3) else parseMonthAux (i + 1) rest cs

/-- Match a month abbreviation at the start of the input. -/
def parseMonth (cs : List Char) : Option (Nat × List Char) :=
  parseMonthAux 0 monthAbbrevs cs

/-- Match the `%p` directive: `AM` or `PM`. -/
def parseAmPm : List Char → Option (Bool × List Char)
  | 'A' :: 'M' :: rest => some (false, rest)
  | 'P' :: 'M' :: rest => some (true, rest)
  | _ => none

/-- The `%b %d, %Y, ` part of the timestamp format: abbreviated month,
day digits, a comma-space, four-digit-style year digits, a comma-space.
Returns (year, month, day, remaining input). -/
def parseDatePart (cs : List Char) : Option (Nat × Nat × Nat × List Char) := do
  let (mon, cs) ← parseMonth cs
  let cs ← expectChar ' ' cs
  let (d, cs) ← parseNatNum cs
  let cs ← expectChar ',' cs
  let cs ← expectChar ' ' cs
  let (y, cs) ← parseNatNum cs
  let cs ← expectChar ',' cs
  let cs ← expectChar ' ' cs
  some (y, mon, d, cs)

/-- The `%I:%M:%S %p` part of the timestamp format: 12-hour time with AM/PM,
consuming the whole remaining input. Returns (hour, minute, second, pm). -/
def parseTimePart (cs : List Char) : Option (Nat × Nat × Nat × Bool) := do
  let (h, cs) ← parseNatNum cs
  let cs ← expectChar ':' cs
  let (mi, cs) ← parseNatNum cs
  let cs ← expectChar ':' cs
  let (sec, cs) ← parseNatNum cs
  let cs ← expectChar ' ' cs
  let (pm, cs) ← parseAmPm cs
  if cs = [] then some (h, mi, sec, pm) else none

/-- Python's `datetime.strptime(s, "%b %d, %Y, %I:%M:%S %p")`: parse a timestamp such
as `Aug 7, 2021, 12:44:45 AM`, validating the calendar date and the
12-hour time, and converting to a 24-hour datetime. Returns `none` where
Python raises `ValueError`. -/
def parseTimestamp (s : String) : Option DT := do
  let (y, mon, d, rest) ← parseDatePart s.data
  let (h, mi, sec, pm) ← parseTimePart rest
  if 1 ≤ d ∧ d ≤ daysInMonth y mon ∧ 1 ≤ h ∧ h ≤ 12 ∧
      mi ≤ 59 ∧ sec ≤ 59 ∧ 1 ≤ y ∧ y ≤ 9999 then
    some ⟨y, mon, d, h % 12 + (if pm then 12 else 0), mi, sec⟩
  else
    none

/-- Python's `float(s)` restricted to plain decimal literals (an optional
sign, digits, an optional fractional part). Returns `none` where Python
raises `ValueError`. -/
def parseFloat (s : String) : Option ℚ :=
  let step1 : ℚ × List Char :=
    match s.data with
    | '-' :: rest => (-1, rest)
    | '+' :: rest => (1, rest)
    | cs => (1, cs)
  match step1 with
  | (sign, cs) =>
    match takeDigits cs with
    | (ids, cs2) =>
      match cs2 with
      | [] => if ids = [] then none else some (sign * (digitsToNat ids : ℚ))
      | '.' :: rest =>
        match takeDigits rest with
        | (fds, cs3) =>
          if cs3 = [] ∧ (ids ≠ [] ∨ fds ≠ []) then
            some (sign * ((digitsToNat ids : ℚ) +
              (digitsToNat fds : ℚ) / (10 ^ fds.length)))
          else none
      | _ => none

/-- The kilometres-to-miles factor `0.621371` of `filter_activities`. -/
def convFactor : ℚ := 621371 / 1000000

/-- The body of the row loop of `filter_activities`, in source order: the
activity-type comparison first, then the timestamp parse, the year
comparison, and finally the distance parse and unit conversion. -/
def processRow (year : Nat) (ftype : String) (r : Row) : Except Err (Option Activity) :=
  if r.activityType ≠ ftype then .ok none
  else
    match parseTimestamp r.dateStr with
    | none => .error .parseError
    | some date =>
      if date.year ≠ year then .ok none
      else
        match parseFloat r.distanceStr with
        | none => .error .parseError
        | some km => .ok (some { date := date, mileage := km * convFactor })

/-- The row loop of `filter_activities`, accumulating kept records in order
and aborting at the first raising row. -/
def filterLoop (year : Nat) (ftype : String) : List Row → Except Err (List Activity)
  | [] => .ok []
  | r :: rs =>
    match processRow year ftype r with
    | .error e => .error e
    | .ok none => filterLoop year ftype rs
    | .ok (some a) =>
      match filterLoop year ftype rs with
      | .error e => .error e
      | .ok acts => .ok (a :: acts)

/-- The function `filter_activities(year, file, filter_activity_type)` from `src/main.py`,
over the file's rows: `next(reader, None)` skips the first row
unconditionally, then the loop runs over the rest. -/
def filter_activities (year : Nat) (ftype : String) (rows : List Row) :
    Except Err (List Activity) :=
  filterLoop year ftype (rows.drop 1)

/-- The function `main` from `src/main.py`, up to the data computed for the chart:
filter, enrich, and build the cumulative series. An error anywhere aborts
the run before any chart is produced. -/
def run_pipeline (year : Nat) (ftype : String) (rows : List Row) :
    Except Err (List DT × List ℚ) := do
  let activities ← filter_activities year ftype rows
  let enriched := enrich_activities activities year
  create_graph_series enriched

/-- Modelled from the spec (section 4.3) for the refinement comparison of
claim C2: the single running prefix sum of the daily mileage values, with
each displayed total rounded to two decimals once, after accumulation. -/
def spec_cumulative (mileages : List ℚ) : List ℚ :=
  (List.range mileages.length).map (fun i => round2 ((mileages.take (i + 1)).sum))

/-- A true `chainB` check gives `List.Chain'`. -/
theorem chainB_chain' (r : α → α → Bool) :
    ∀ l : List α, chainB r l = true → List.Chain' (fun a b => r a b = true) l := by
  intro l
  induction l with
  | nil => intro _; simp
  | cons a t ih =>
    cases t with
    | nil => intro _; simp
    | cons b t2 =>
      intro h
      rw [chainB, Bool.and_eq_true] at h
      rw [List.chain'_cons]
      exact ⟨h.1, ih h.2⟩

/-- The pair list is the canonical day enumeration, for either flag. -/
theorem pairsList_eq_allPairs (b : Bool) : pairsList b = allPairs b := by
  cases b
  · exact pairsList_false
  · exact pairsList_true

/-- Consecutive pairs of the pair list strictly increase, for either flag. -/
theorem pairsList_chain (b : Bool) :
    List.Chain' (fun p q => pairLt p q = true) (pairsList b) := by
  cases b
  · exact chainB_chain' pairLt (pairsList false) pairsList_false_chain
  · exact chainB_chain' pairLt (pairsList true) pairsList_true_chain

/-- List `gen_days` has exactly as many entries as the year has days. -/
theorem gen_days_length (y : Nat) : (gen_days y).length = daysInYear y := by
  rw [gen_days_eq, List.length_map, daysInYear]
  cases hb : isLeap y
  · simp [pairsList_false_length]
  · simp [pairsList_true_length]

/-- List `gen_days` always starts with January 1, hence is never empty. -/
theorem gen_days_ne_nil (y : Nat) : gen_days y ≠ [] := by
  rw [gen_days]
  exact List.cons_ne_nil _ _

/-- Every generated day carries the target year and midnight time of day. -/
theorem gen_days_fields {y : Nat} {d : DT} (hd : d ∈ gen_days y) :
    d.year = y ∧ d.hour = 0 ∧ d.minute = 0 ∧ d.second = 0 := by
  rw [gen_days_eq] at hd
  obtain ⟨p, _, rfl⟩ := List.mem_map.mp hd
  exact ⟨rfl, rfl, rfl, rfl⟩

/-- The enriched entry of a day sits on the same calendar day. -/
theorem calDay_dayEntry (sorted : List Activity) (day : DT) :
    calDay (dayEntry sorted day).date = calDay day := by
  unfold dayEntry
  cases hm : find_matching_activities day sorted with
  | nil => rfl
  | cons m ms =>
    have hmem : m ∈ find_matching_activities day sorted := by
      rw [hm]; exact List.mem_cons_self m ms
    unfold find_matching_activities at hmem
    have hp := List.of_mem_filter hmem
    simp only [Bool.and_eq_true, beq_iff_eq] at hp
    simp [calDay, hp.1.1, hp.1.2, hp.2]

/-- Lexicographic dominance of the calendar day in the datetime order:
with equal years, an earlier (month, day) gives `dtLt` whatever the times. -/
theorem dtLt_of_calDay_lt {a b : DT} (hy : a.year = b.year)
    (h : a.month < b.month ∨ (a.month = b.month ∧ a.day < b.day)) :
    dtLt a b = true := by
  unfold dtLt
  rcases h with h | ⟨h1, h2⟩
  · have hne : a.month ≠ b.month := Nat.ne_of_lt h
    simp [hy, hne, h]
  · have hd : a.day ≠ b.day := Nat.ne_of_lt h2
    simp [hy, h1, hd, h2]

/-- The mileage fold of `enrich_activities` is the sum of the mileages. -/
theorem foldl_add_mileage (l : List Activity) :
    ∀ q : ℚ, l.foldl (fun acc a => acc + a.mileage) q = q + (l.map (fun a => a.mileage)).sum := by
  induction l with
  | nil => intro q; simp
  | cons a t ih => intro q; simp [ih, add_assoc]

/-- Sorting is a permutation of the input. -/
theorem sortActivities_perm (l : List Activity) : List.Perm (sortActivities l) l :=
  List.perm_insertionSort actLe l

/-- Matching against the sorted records permutes matching against the input. -/
theorem find_matching_sort_perm (day : DT) (acts : List Activity) :
    List.Perm (find_matching_activities day (sortActivities acts))
      (find_matching_activities day acts) := by
  unfold find_matching_activities
  exact (sortActivities_perm acts).filter _

/-- The summed mileage of the matches does not depend on the sort. -/
theorem find_matching_sort_sum (day : DT) (acts : List Activity) :
    ((find_matching_activities day (sortActivities acts)).map (fun a => a.mileage)).sum
      = ((find_matching_activities day acts).map (fun a => a.mileage)).sum :=
  ((find_matching_sort_perm day acts).map _).sum_eq

/-- Function `cumsumAux` computes the prefix sums of the list, each shifted by the
accumulator. -/
theorem cumsumAux_totals (l : List ℚ) :
    ∀ acc : ℚ, cumsumAux acc l
      = (List.range l.length).map (fun i => acc + (l.take (i + 1)).sum) := by
  induction l with
  | nil => intro acc; rfl
  | cons x t ih =>
    intro acc
    rw [cumsumAux, List.length_cons, List.range_succ_eq_map, List.map_cons, List.map_map,
      ih (acc + x)]
    congr 1
    · simp
    · apply List.map_congr_left
      intro i _
      simp [List.take_succ_cons, add_assoc]

/-- Function `cumsum` gives the list of prefix sums. -/
theorem cumsum_totals (l : List ℚ) :
    cumsum l = (List.range l.length).map (fun i => (l.take (i + 1)).sum) := by
  rw [cumsum, cumsumAux_totals]
  apply List.map_congr_left
  intro i _
  rw [zero_add]

/-- Function `cumsum` preserves length. -/
theorem cumsum_length (l : List ℚ) : (cumsum l).length = l.length := by
  rw [cumsum_totals, List.length_map, List.length_range]

/-- The flattened per-element `np.cumsum` results are exactly the mileage
values: `np.cumsum` of a scalar is a one-element array. -/
theorem flatten_cumsum_singleton (e : List Activity) :
    (e.map (fun i => cumsum [i.mileage])).flatten = e.map (fun i => i.mileage) := by
  induction e with
  | nil => rfl
  | cons a t ih =>
    have hc : cumsum [a.mileage] = [a.mileage] := by simp [cumsum, cumsumAux]
    rw [List.map_cons, List.flatten_cons, hc, ih]
    simp

/-- On a nonempty list, the series construction of `create_graph` returns
the dates paired with the rounded prefix sums of the mileages. -/
theorem create_graph_series_eq (e : List Activity) (h : e ≠ []) :
    create_graph_series e
      = .ok (e.map (fun i => i.date), (cumsum (e.map (fun i => i.mileage))).map round2) := by
  cases e with
  | nil => exact absurd rfl h
  | cons a t =>
    show Except.ok _ = _
    rw [flatten_cumsum_singleton]

/-- Rounding `round2` is monotone. -/
theorem round2_mono {a b : ℚ} (h : a ≤ b) : round2 a ≤ round2 b := by
  unfold round2
  have h1 : a * 100 + 1 / 2 ≤ b * 100 + 1 / 2 :=
    add_le_add_right (mul_le_mul_of_nonneg_right h (by norm_num)) _
  have h3 : ((⌊a * 100 + 1 / 2⌋ : ℤ) : ℚ) ≤ ((⌊b * 100 + 1 / 2⌋ : ℤ) : ℚ) := by
    exact_mod_cast Int.floor_le_floor h1
  rw [div_eq_mul_inv, div_eq_mul_inv]
  exact mul_le_mul_of_nonneg_right h3 (by norm_num)

/-- Rounding zero gives zero. -/
theorem round2_zero : round2 0 = 0 := by norm_num [round2]

/-- Prefix sums of nonnegative values are non-decreasing (with the leading
accumulator included). -/
theorem cumsumAux_chain :
    ∀ l : List ℚ, (∀ x ∈ l, 0 ≤ x) →
      ∀ acc : ℚ, List.Chain' (fun a b => a ≤ b) (acc :: cumsumAux acc l) := by
  intro l
  induction l with
  | nil => intro _ acc; simp [cumsumAux]
  | cons x t ih =>
    intro h acc
    rw [cumsumAux, List.chain'_cons]
    constructor
    · have hx : 0 ≤ x := h x (List.mem_cons_self x t)
      linarith
    · exact ih (fun z hz => h z (List.mem_cons_of_mem x hz)) (acc + x)

/-- Mapping the monotone `round2` preserves a non-decreasing chain. -/
theorem chain_map_round2 {l : List ℚ} (h : List.Chain' (fun a b => a ≤ b) l) :
    List.Chain' (fun a b => a ≤ b) (l.map round2) := by
  rw [List.chain'_map]
  exact h.imp (fun a b hab => round2_mono hab)

/-- Prefix sums of an all-zero list stay zero. -/
theorem cumsumAux_replicate_zero : ∀ n : Nat, cumsumAux 0 (List.replicate n 0) = List.replicate n 0 := by
  intro n
  induction n with
  | zero => rfl
  | succ k ih => simp [List.replicate_succ, cumsumAux, ih]

/-- Function `run_pipeline` is the filter followed by enrichment and the series
construction, with errors propagated. -/
theorem run_pipeline_eq (year : Nat) (ftype : String) (rows : List Row) :
    run_pipeline year ftype rows
      = match filter_activities year ftype rows with
        | .error e => .error e
        | .ok acts => create_graph_series (enrich_activities acts year) := by
  unfold run_pipeline
  cases filter_activities year ftype rows <;> rfl

/-- The only error `processRow` can raise is the parse error. -/
theorem processRow_error (year : Nat) (ftype : String) (r : Row) (e : Err)
    (h : processRow year ftype r = .error e) : e = .parseError := by
  unfold processRow at h
  split at h
  · simp at h
  · split at h
    · simp only [Except.error.injEq] at h
      exact h.symm
    · split at h
      · simp at h
      · split at h
        · simp only [Except.error.injEq] at h
          exact h.symm
        · simp at h

/-- If some row of the loop raises, the whole loop raises the parse error. -/
theorem filterLoop_error (year : Nat) (ftype : String) :
    ∀ (l : List Row) (r : Row), r ∈ l → processRow year ftype r = .error .parseError →
      filterLoop year ftype l = .error .parseError := by
  intro l
  induction l with
  | nil => intro r hr; exact absurd hr (List.not_mem_nil r)
  | cons x xs ih =>
    intro r hr hpr
    rw [filterLoop]
    rcases List.mem_cons.mp hr with rfl | hr2
    · rw [hpr]
    · cases hx : processRow year ftype x with
      | error e => rw [processRow_error year ftype x e hx]
      | ok o =>
        cases o with
        | none => exact ih r hr2 hpr
        | some a => rw [ih r hr2 hpr]

/-- Rows whose activity type does not match are all skipped, whatever their
other fields contain. -/
theorem filterLoop_all_skip (year : Nat) (ftype : String) :
    ∀ rows : List Row, (∀ x ∈ rows, x.activityType ≠ ftype) →
      filterLoop year ftype rows = .ok [] := by
  intro rows
  induction rows with
  | nil => intro _; rfl
  | cons x xs ih =>
    intro hall
    rw [filterLoop]
    have hx : processRow year ftype x = .ok none := by
      unfold processRow
      rw [if_pos (hall x (List.mem_cons_self x xs))]
    rw [hx]
    exact ih (fun z hz => hall z (List.mem_cons_of_mem x hz))

/-- A sample header row; its contents are never inspected. -/
def hdrRow : Row := { dateStr := "Date", activityType := "Activity Type", distanceStr := "Distance" }

/-- A row of a non-requested type whose timestamp and distance are both
malformed. -/
def badWalkRow : Row := { dateStr := "not a timestamp", activityType := "Walk", distanceStr := "xyz" }

/-- A row of the requested type with a malformed timestamp. -/
def badRunRow : Row := { dateStr := "not a timestamp", activityType := "Run", distanceStr := "10" }

/-- A well-formed `Run` row: `Aug 7, 2021, 12:44:45 AM`, 10 km. -/
def runRow : Row := { dateStr := "Aug 7, 2021, 12:44:45 AM", activityType := "Run", distanceStr := "10" }

/-- The datetime parsed from `runRow` (12 AM is hour zero). -/
def dtAug7 : DT := ⟨2021, 8, 7, 0, 44, 45⟩

/-- Claim C9: the Record Filter skips the first row unconditionally without
validating it, and an input of no rows, or of a header row only, yields an
empty record sequence without error. -/
theorem c9_header_skip (year : Nat) (ftype : String) (hdr : Row) (rows : List Row) :
    filter_activities year ftype (hdr :: rows) = filterLoop year ftype rows
    ∧ filter_activities year ftype [] = .ok []
    ∧ filter_activities year ftype [hdr] = .ok [] :=
  ⟨rfl, rfl, rfl⟩

/-- Claim C10: the activity-type equality check runs before the timestamp
and distance fields are parsed, so a non-header row of a different type is
skipped whatever those fields contain, and such rows never make the filter
fail. -/
theorem c10_type_checked_first (year : Nat) (ftype : String) (r : Row)
    (h : r.activityType ≠ ftype) :
    processRow year ftype r = .ok none
    ∧ ∀ (hdr : Row) (rows : List Row), (∀ x ∈ rows, x.activityType ≠ ftype) →
        filter_activities year ftype (hdr :: rows) = .ok [] := by
  constructor
  · unfold processRow
    rw [if_pos h]
  · intro hdr rows hall
    have hskip : filter_activities year ftype (hdr :: rows) = filterLoop year ftype rows := rfl
    rw [hskip]
    exact filterLoop_all_skip year ftype rows hall

/-- Witness for C10 at a concrete malformed `Walk` row with target `Run`. -/
theorem c10_witness :
    processRow 2021 "Run" badWalkRow = .ok none
    ∧ filter_activities 2021 "Run" [hdrRow, badWalkRow] = .ok [] := by
  have h := c10_type_checked_first 2021 "Run" badWalkRow (by decide)
  exact ⟨h.1, h.2 hdrRow [badWalkRow] (by decide)⟩

/-- Claim C4: a well-formed row is kept exactly when its activity-type field
equals the requested type (case-sensitive string equality) and its parsed
timestamp's year equals the target year, and a kept record's mileage is the
kilometres value times 0.621371, applied once. -/
theorem c4_filter_rule (year : Nat) (ftype : String) (r : Row) (dt : DT) (km : ℚ)
    (hts : parseTimestamp r.dateStr = some dt) (hkm : parseFloat r.distanceStr = some km) :
    processRow year ftype r =
      .ok (if r.activityType = ftype ∧ dt.year = year
        then some { date := dt, mileage := km * convFactor } else none)
    ∧ ∀ hdr : Row, filter_activities year ftype [hdr, r] =
        .ok (if r.activityType = ftype ∧ dt.year = year
          then [{ date := dt, mileage := km * convFactor }] else []) := by
  have hpr : processRow year ftype r =
      .ok (if r.activityType = ftype ∧ dt.year = year
        then some { date := dt, mileage := km * convFactor } else none) := by
    simp only [processRow, hts, hkm]
    by_cases h1 : r.activityType = ftype <;> by_cases h2 : dt.year = year <;>
      simp [h1, h2]
  refine ⟨hpr, ?_⟩
  intro hdr
  have hskip : filter_activities year ftype [hdr, r] = filterLoop year ftype [r] := rfl
  by_cases h : r.activityType = ftype ∧ dt.year = year
  · simp only [hskip, filterLoop, hpr, if_pos h]
  · simp only [hskip, filterLoop, hpr, if_neg h]

/-- Witness for C4 at the concrete row `runRow` for year 2021, type `Run`. -/
theorem c4_witness :
    processRow 2021 "Run" runRow = .ok (some { date := dtAug7, mileage := 10 * convFactor }) := by
  have h := (c4_filter_rule 2021 "Run" runRow dtAug7 10 (by decide)
    (by simp +decide [runRow, parseFloat, takeDigits, digitVal, digitsToNat])).1
  rw [h, if_pos ⟨rfl, rfl⟩]

/-- Claim C5 (amended): a malformed timestamp, or a non-numeric distance on
a year-matching row, aborts the run with a parse error before any chart is
produced, provided the row's activity type matches the requested type. -/
theorem c5_parse_error_abort (year : Nat) (ftype : String) (rows : List Row) (r : Row)
    (hmem : r ∈ rows.drop 1) (hty : r.activityType = ftype)
    (hbad : parseTimestamp r.dateStr = none ∨
      ∃ dt, parseTimestamp r.dateStr = some dt ∧ dt.year = year ∧
        parseFloat r.distanceStr = none) :
    run_pipeline year ftype rows = .error .parseError := by
  have hpr : processRow year ftype r = .error .parseError := by
    rcases hbad with hnone | ⟨dt, hsome, hyear, hkm⟩
    · simp only [processRow, hnone]
      rw [if_neg (not_not_intro hty)]
    · simp only [processRow, hsome, hkm]
      rw [if_neg (not_not_intro hty), if_neg (not_not_intro hyear)]
  have hfl : filterLoop year ftype (rows.drop 1) = .error .parseError :=
    filterLoop_error year ftype (rows.drop 1) r hmem hpr
  have h2 : filter_activities year ftype rows = .error .parseError := hfl
  rw [run_pipeline_eq, h2]

/-- Helper shared by the empty-result claims: a filter returning no records
still yields the zero-filled year and an all-zero cumulative series. -/
theorem run_pipeline_no_matches (year : Nat) (ftype : String) (rows : List Row)
    (h : filter_activities year ftype rows = .ok []) :
    run_pipeline year ftype rows
      = .ok (gen_days year, List.replicate (daysInYear year) 0) := by
  have henr : enrich_activities [] year
      = (gen_days year).map (fun d => ({ date := d, mileage := 0 } : Activity)) := rfl
  have hne : ((gen_days year).map (fun d => ({ date := d, mileage := 0 } : Activity))) ≠ [] := by
    simp [gen_days]
  have hx : ((gen_days year).map (fun d => ({ date := d, mileage := 0 } : Activity))).map
      (fun i => i.date) = gen_days year := by
    rw [List.map_map]
    exact List.map_id _
  have hm : ((gen_days year).map (fun d => ({ date := d, mileage := 0 } : Activity))).map
      (fun i => i.mileage) = List.replicate (daysInYear year) (0 : ℚ) := by
    rw [List.map_map]
    calc (gen_days year).map ((fun (i : Activity) => i.mileage) ∘
            (fun d => ({ date := d, mileage := 0 } : Activity)))
        = (gen_days year).map (fun _ => (0 : ℚ)) := List.map_congr_left (fun d _ => rfl)
      _ = List.replicate (gen_days year).length (0 : ℚ) := by
          rw [List.map_const']
      _ = List.replicate (daysInYear year) (0 : ℚ) := by rw [gen_days_length]
  have hser : create_graph_series ((gen_days year).map
        (fun d => ({ date := d, mileage := 0 } : Activity)))
      = .ok (gen_days year, List.replicate (daysInYear year) 0) := by
    rw [create_graph_series_eq _ hne, hx, hm]
    have hcs : cumsum (List.replicate (daysInYear year) (0 : ℚ))
        = List.replicate (daysInYear year) 0 := cumsumAux_replicate_zero _
    rw [hcs, List.map_replicate, round2_zero]
  rw [run_pipeline_eq, h]
  show create_graph_series (enrich_activities [] year) = _
  rw [henr]
  exact hser

/-- Counterexample to claim C5 as stated: a non-header row with a malformed
timestamp (of a different activity type) does not abort the run; the filter
succeeds and the chart data is still produced. -/
theorem c5_counterexample :
    parseTimestamp badWalkRow.dateStr = none
    ∧ run_pipeline 2021 "Run" [hdrRow, badWalkRow]
        = .ok (gen_days 2021, List.replicate 365 0) := by
  constructor
  · decide
  · have h := run_pipeline_no_matches 2021 "Run" [hdrRow, badWalkRow] rfl
    have h365 : daysInYear 2021 = 365 := by decide
    rw [h, h365]

/-- Witness for the amended C5 at a concrete `Run` row with a malformed
timestamp. -/
theorem c5_witness :
    run_pipeline 2021 "Run" [hdrRow, badRunRow] = .error .parseError :=
  c5_parse_error_abort 2021 "Run" [hdrRow, badRunRow] badRunRow
    (by decide) rfl (Or.inl (by decide))

/-- Claim C8: when no input records match the filter the pipeline does not
fail: the aggregator produces one zero-mileage entry per day of the year,
the cumulative series is all zeros with one value per day, and the chart
data is produced without error. -/
theorem c8_empty_result (year : Nat) (ftype : String) (rows : List Row)
    (h : filter_activities year ftype rows = .ok []) :
    run_pipeline year ftype rows
      = .ok (gen_days year, List.replicate (daysInYear year) 0)
    ∧ enrich_activities [] year
      = (gen_days year).map (fun d => ({ date := d, mileage := 0 } : Activity))
    ∧ (gen_days year).length = daysInYear year :=
  ⟨run_pipeline_no_matches year ftype rows h, rfl, gen_days_length year⟩

/-- Witness for C8 at a header-only input for year 2021. -/
theorem c8_witness :
    run_pipeline 2021 "Run" [hdrRow] = .ok (gen_days 2021, List.replicate 365 0) := by
  have h := (c8_empty_result 2021 "Run" [hdrRow] rfl).1
  have h365 : daysInYear 2021 = 365 := by decide
  rw [h, h365]

/-- January 1, 2021 at 8:00. -/
def dJan1 : DT := ⟨2021, 1, 1, 8, 0, 0⟩

/-- January 2, 2021 at midnight. -/
def dJan2 : DT := ⟨2021, 1, 2, 0, 0, 0⟩

/-- Two sample activities on consecutive days, 3 and 4 miles. -/
def twoDayActs : List Activity := [{ date := dJan1, mileage := 3 }, { date := dJan2, mileage := 4 }]

/-- Counterexample to claim C6 as stated: on an empty daily sequence the
series construction does not produce an empty cumulative sequence; the
`zip(*[])` unpacking raises instead. -/
theorem c6_counterexample : create_graph_series [] = .error .unpackError := rfl

/-- Claim C6 (amended): a single-day sequence produces a one-element
cumulative sequence without error, and on any nonempty sequence the series
construction succeeds with one cumulative value per day; an empty sequence
is rejected by the unpacking step rather than yielding an empty series. -/
theorem c6_degenerate (a : Activity) (e : List Activity) (h : e ≠ []) :
    create_graph_series [a] = .ok ([a.date], [round2 a.mileage])
    ∧ (create_graph_series e).isOk = true
    ∧ ∀ x y, create_graph_series e = .ok (x, y) → x.length = e.length ∧ y.length = e.length := by
  refine ⟨?_, ?_, ?_⟩
  · rw [create_graph_series_eq [a] (by simp)]
    simp [cumsum, cumsumAux]
  · rw [create_graph_series_eq e h]
    rfl
  · intro x y hxy
    rw [create_graph_series_eq e h] at hxy
    simp only [Except.ok.injEq, Prod.mk.injEq] at hxy
    obtain ⟨hxx, hyy⟩ := hxy
    subst hxx
    subst hyy
    constructor
    · rw [List.length_map]
    · rw [List.length_map, cumsum_length, List.length_map]

/-- Witness for C6 at a concrete one-day sequence. -/
theorem c6_witness :
    create_graph_series [{ date := dJan1, mileage := 5 }]
      = .ok ([dJan1], [5]) := by
  have h := (c6_degenerate { date := dJan1, mileage := 5 }
    [{ date := dJan1, mileage := 5 }] (by simp)).1
  rw [h]
  norm_num [round2]

/-- Claim C7: on mileage values that are all nonnegative, the cumulative
series is monotonically non-decreasing. -/
theorem c7_monotone (e : List Activity) (h : ∀ a ∈ e, 0 ≤ a.mileage)
    (xy : List DT × List ℚ) (hxy : create_graph_series e = .ok xy) :
    List.Chain' (fun a b => a ≤ b) xy.2 := by
  cases e with
  | nil => simp [create_graph_series] at hxy
  | cons a t =>
    rw [create_graph_series_eq (a :: t) (by simp)] at hxy
    simp only [Except.ok.injEq] at hxy
    subst hxy
    apply chain_map_round2
    have hl : ∀ x ∈ (a :: t).map (fun i => i.mileage), 0 ≤ x := by
      intro x hx
      obtain ⟨b, hb, rfl⟩ := List.mem_map.mp hx
      exact h b hb
    have hc := cumsumAux_chain ((a :: t).map (fun i => i.mileage)) hl 0
    exact hc.tail

/-- Witness for C7 at the two-day sample. -/
theorem c7_witness : List.Chain' (fun a b : ℚ => a ≤ b) [3, 7] := by
  have hxy : create_graph_series twoDayActs = .ok ([dJan1, dJan2], [3, 7]) := by
    rw [create_graph_series_eq twoDayActs (by simp [twoDayActs])]
    norm_num [twoDayActs, cumsum, cumsumAux, round2]
  have h := c7_monotone twoDayActs
    (by
      intro a ha
      simp only [twoDayActs, List.mem_cons, List.not_mem_nil, or_false] at ha
      rcases ha with rfl | rfl <;> norm_num)
    ([dJan1, dJan2], [3, 7]) hxy
  exact h

/-- The rounded prefix sums computed by the code are the spec's single
prefix sum with one final rounding. -/
theorem cumsum_round_eq_spec (l : List ℚ) :
    (cumsum l).map round2 = spec_cumulative l := by
  rw [cumsum_totals, List.map_map, spec_cumulative]
  rfl

/-- Claim C2: on every daily sequence the series construction accepts, the
double `cumsum` of `create_graph` equals the single prefix sum of the daily
mileage values, and the value at index i is the sum of the mileages at
indices 0..i, rounded to two decimals exactly once, after accumulation. -/
theorem c2_series_refinement (e : List Activity) (h : e ≠ []) :
    create_graph_series e
      = .ok (e.map (fun i => i.date), spec_cumulative (e.map (fun i => i.mileage)))
    ∧ ∀ i : Nat, i < e.length →
        (spec_cumulative (e.map (fun i => i.mileage)))[i]?
          = some (round2 (((e.map (fun i => i.mileage)).take (i + 1)).sum)) := by
  constructor
  · rw [create_graph_series_eq e h, cumsum_round_eq_spec]
  · intro i hi
    have hlen : i < (e.map (fun i => i.mileage)).length := by
      rw [List.length_map]
      exact hi
    rw [spec_cumulative, List.getElem?_map, List.getElem?_range hlen]
    rfl

/-- Witness for C2 at the two-day sample: the produced series is the rounded
prefix sums 3, 3 + 4. -/
theorem c2_witness :
    create_graph_series twoDayActs = .ok ([dJan1, dJan2], [3, 7])
    ∧ (spec_cumulative (twoDayActs.map (fun i => i.mileage)))[1]? = some 7 := by
  have h := c2_series_refinement twoDayActs (by simp [twoDayActs])
  have hr : List.range 2 = [0, 1] := by decide
  have hspec : spec_cumulative (twoDayActs.map (fun i => i.mileage)) = [3, 7] := by
    norm_num [twoDayActs, spec_cumulative, hr, round2]
  constructor
  · rw [h.1, hspec]
    rfl
  · rw [h.2 1 (by norm_num [twoDayActs]), twoDayActs]
    norm_num [round2]

/-- Claim C1: for every target year and every input activity list, the
enriched output has exactly one entry per calendar day of the year, January
1 through December 31 in ascending order with no gaps or duplicates: its
calendar days are the canonical enumeration of the year, its entries are
strictly increasing by date, its length is 366 in a leap year (and the
output then includes February 29) and 365 otherwise. -/
theorem c1_daily_coverage (y : Nat) (acts : List Activity) :
    (enrich_activities acts y).map (fun e => calDay e.date)
        = (allPairs (isLeap y)).map (fun p => (y, p.1, p.2))
    ∧ List.Chain' (fun a b => dtLt a.date b.date = true) (enrich_activities acts y)
    ∧ (enrich_activities acts y).length = (if isLeap y = true then 366 else 365)
    ∧ (isLeap y = true →
        (y, 2, 29) ∈ (enrich_activities acts y).map (fun e => calDay e.date)) := by
  have hmap1 : (enrich_activities acts y).map (fun e => calDay e.date)
      = (gen_days y).map calDay := by
    unfold enrich_activities
    rw [List.map_map]
    exact List.map_congr_left (fun d _ => calDay_dayEntry (sortActivities acts) d)
  have hmap2 : (gen_days y).map calDay
      = (pairsList (isLeap y)).map (fun p => (y, p.1, p.2)) := by
    rw [gen_days_eq, List.map_map]
    rfl
  have hconj1 : (enrich_activities acts y).map (fun e => calDay e.date)
      = (allPairs (isLeap y)).map (fun p => (y, p.1, p.2)) := by
    rw [hmap1, hmap2, pairsList_eq_allPairs]
  refine ⟨hconj1, ?_, ?_, ?_⟩
  · unfold enrich_activities
    rw [gen_days_eq, List.map_map, List.chain'_map]
    refine (pairsList_chain (isLeap y)).imp ?_
    intro p q hpq
    simp only [Function.comp_apply]
    have hp := calDay_dayEntry (sortActivities acts) (DT.mk y p.1 p.2 0 0 0)
    have hq := calDay_dayEntry (sortActivities acts) (DT.mk y q.1 q.2 0 0 0)
    simp only [calDay, Prod.mk.injEq] at hp hq
    have hpq2 : p.1 < q.1 ∨ (p.1 = q.1 ∧ p.2 < q.2) := by
      simpa [pairLt, Bool.or_eq_true, Bool.and_eq_true, decide_eq_true_eq] using hpq
    apply dtLt_of_calDay_lt
    · rw [hp.1, hq.1]
    · rw [hp.2.1, hp.2.2, hq.2.1, hq.2.2]
      exact hpq2
  · unfold enrich_activities
    rw [List.length_map, gen_days_length]
    rfl
  · intro hleap
    rw [hconj1, hleap, ← pairsList_eq_allPairs]
    exact List.mem_map.mpr ⟨(2, 29), pairsList_feb29, rfl⟩

/-- Witness for C1 at the leap year 2020 and the common year 2021. -/
theorem c1_witness :
    (enrich_activities [] 2020).length = 366
    ∧ (2020, 2, 29) ∈ (enrich_activities [] 2020).map (fun e => calDay e.date)
    ∧ (enrich_activities [] 2021).length = 365 := by
  have h20 := c1_daily_coverage 2020 []
  have h21 := c1_daily_coverage 2021 []
  have hl20 : isLeap 2020 = true := by decide
  have hl21 : isLeap 2021 = false := by decide
  refine ⟨?_, h20.2.2.2 hl20, ?_⟩
  · rw [h20.2.2.1, hl20]
    rfl
  · rw [h21.2.2.1, hl21]
    rfl

/-- Two sample activities on the same day (January 1, 2021), 3 and 4 miles. -/
def sameDayActs : List Activity :=
  [{ date := dJan1, mileage := 3 }, { date := ⟨2021, 1, 1, 9, 0, 0⟩, mileage := 4 }]

/-- Claim C3: for every day of the target year, the aggregator assigns: with
no matching records, mileage 0 and the canonical day itself (a midnight
timestamp) as the date; with matching records, the sum of the matching
records' mileage values (taken over the input list), dated by the earliest
match after sorting all records by date ascending. -/
theorem c3_day_assignment (year : Nat) (acts : List Activity) (i : Nat)
    (hi : i < (gen_days year).length) (day : DT)
    (hday : (gen_days year).get ⟨i, hi⟩ = day) :
    (day.hour = 0 ∧ day.minute = 0 ∧ day.second = 0)
    ∧ (find_matching_activities day (sortActivities acts) = [] →
        (enrich_activities acts year)[i]? = some { date := day, mileage := 0 })
    ∧ ∀ m ms, find_matching_activities day (sortActivities acts) = m :: ms →
        (enrich_activities acts year)[i]?
          = some ⟨m.date, ((find_matching_activities day acts).map (fun a => a.mileage)).sum⟩ := by
  subst hday
  have hmem : (gen_days year).get ⟨i, hi⟩ ∈ gen_days year := (gen_days year).get_mem i hi
  have hidx : (enrich_activities acts year)[i]?
      = some (dayEntry (sortActivities acts) ((gen_days year).get ⟨i, hi⟩)) := by
    unfold enrich_activities
    rw [List.getElem?_map, List.getElem?_eq_getElem hi]
    simp [List.get_eq_getElem]
  obtain ⟨hy, hh, hm, hs⟩ := gen_days_fields hmem
  refine ⟨⟨hh, hm, hs⟩, ?_, ?_⟩
  · intro hnone
    rw [hidx]
    simp only [List.get_eq_getElem] at hnone ⊢
    simp [dayEntry, hnone]
  · intro m ms hcons
    rw [hidx]
    simp only [List.get_eq_getElem] at hcons ⊢
    simp only [dayEntry, hcons]
    rw [foldl_add_mileage (m :: ms) 0, zero_add, ← hcons, find_matching_sort_sum]

/-- Witness for C3: two records on January 1, 2021 with mileage 3 and 4
produce a single entry of mileage 7, dated by the earliest match. -/
theorem c3_witness : (enrich_activities sameDayActs 2021)[0]? = some ⟨dJan1, 7⟩ := by
  have h := (c3_day_assignment 2021 sameDayActs 0 (by decide)
    ⟨2021, 1, 1, 0, 0, 0⟩ (by decide)).2.2
  have hm : find_matching_activities ⟨2021, 1, 1, 0, 0, 0⟩ (sortActivities sameDayActs)
      = ({ date := dJan1, mileage := 3 } : Activity)
        :: [({ date := ⟨2021, 1, 1, 9, 0, 0⟩, mileage := 4 } : Activity)] := by decide
  have h2 := h _ _ hm
  rw [h2]
  have hf : find_matching_activities ⟨2021, 1, 1, 0, 0, 0⟩ sameDayActs = sameDayActs := by decide
  rw [hf]
  norm_num [sameDayActs, dJan1]
